import Mathlib

/-!
Verification of `packages/hardhat-viem/src/internal/tasks.ts` (artifact
declaration generation, collision detection, stale-output pruning) and the
bundled version-notifier module.

The TypeScript code is shallowly embedded: pure string templating becomes
Lean string functions, the notifier's I/O becomes an explicit effect trace,
and external services (GitHub fetches, the semver library, `Date`, the file
system) become parameters or small state models.
-/

namespace Hardhat

/-! ## Generic string helpers (models of the JS string operations used) -/

/-- Escape one character as inside a JSON string literal (as
`JSON.stringify` does for the characters that occur here). -/
def jsonEscapeChar (c : Char) : List Char :=
  if c = '\"' then ['\\', '\"']
  else if c = '\\' then ['\\', '\\']
  else if c = '\n' then ['\\', 'n']
  else if c = '\t' then ['\\', 't']
  else if c = '\r' then ['\\', 'r']
  else [c]

/-- Escape a string as inside a JSON string literal. -/
def jsonEscape (s : String) : String :=
  String.mk (s.toList.map jsonEscapeChar).flatten

/-- Render a string as a JSON string literal, quotes included. -/
def jsQuote (s : String) : String :=
  "\"" ++ jsonEscape s ++ "\""

/-- Model of `Array.prototype.join(sep)`: empty list gives `""`, singleton
gives the element, otherwise elements interleaved with the separator. -/
def joinSep (sep : String) : List String → String
  | [] => ""
  | [x] => x
  | x :: y :: ys => x ++ sep ++ joinSep sep (y :: ys)

/-- Split a character list at every occurrence of the separator character,
keeping empty groups; models `String.prototype.split` with a one-character
separator. -/
def splitOnCharList (sep : Char) : List Char → List (List Char)
  | [] => [[]]
  | c :: rest =>
    let r := splitOnCharList sep rest
    if c = sep then [] :: r
    else
      match r with
      | [] => [[c]]
      | g :: gs => (c :: g) :: gs

/-- Model of `String.prototype.split` with a one-character separator. -/
def jsSplit (s : String) (sep : Char) : List String :=
  (splitOnCharList sep s.toList).map String.mk

/-- Model of `String.prototype.endsWith` / a suffix test on full paths. -/
def strEndsWith (s suffix : String) : Bool :=
  suffix.toList.isSuffixOf s.toList

/-- Model of a string-prefix test (`String.prototype.startsWith`). -/
def strStartsWith (s pre : String) : Bool :=
  pre.toList.isPrefixOf s.toList

/-! ## Data model of compiled artifacts

We model the fields of `Artifact` that `tasks.ts` reads: `contractName`,
`sourceName` and the ABI, whose entries carry a `type` tag (for example
`"constructor"`) and a list of typed inputs. -/

/-- One ABI parameter (`{ internalType, name, type }`). -/
structure AbiParam where
  internalType : String
  name : String
  type : String
deriving DecidableEq, Repr

/-- One ABI entry: its kind tag and its input parameters. -/
structure AbiEntry where
  type : String
  inputs : List AbiParam
deriving DecidableEq, Repr

/-- A compiled artifact, restricted to the fields read by `tasks.ts`. -/
structure Artifact where
  contractName : String
  sourceName : String
  abi : List AbiEntry
deriving DecidableEq, Repr

/-- Modelled from the spec: `getFullyQualifiedName` (from
`hardhat/utils/contract-names`, not part of the sources under
verification) produces the QualifiedName, whose format the spec fixes as
`sourceName:contractName`. -/
def getFullyQualifiedName (sourceName contractName : String) : String :=
  sourceName ++ ":" ++ contractName

/-- Modelled from the spec: `parseFullyQualifiedName` (from
`hardhat/utils/contract-names`, not part of the sources under
verification) is the inverse parse, splitting a QualifiedName back into
`sourceName` and `contractName` at the last colon. -/
def parseFullyQualifiedName (fqn : String) : String × String :=
  let parts := jsSplit fqn ':'
  (joinSep ":" parts.dropLast, parts.getLast? |>.getD "")

/-- Source name component of a parsed fully qualified name. -/
def sourceNameOf (fqn : String) : String :=
  (parseFullyQualifiedName fqn).1

/-- Bare contract name component of a parsed fully qualified name. -/
def contractNameOf (fqn : String) : String :=
  (parseFullyQualifiedName fqn).2

/-! ## Collision detection

`tasks.ts` computes
`contractNames.filter((name, i) => contractNames.indexOf(name) !== i)`,
keeping every occurrence whose position is not the first occurrence of
that name. -/

/-- The duplicate bare names:
`contractNames.filter((name, i) => contractNames.indexOf(name) !== i)`. -/
def dupContractNames (contractNames : List String) : List String :=
  ((contractNames.enum.filter
    fun p => contractNames.indexOf p.2 != p.1).map Prod.snd)

/-! ## Generated file templates -/

/-- The banner placed at the top of every generated file. -/
def AUTOGENERATED_FILE_PREFACE : String :=
  "// This file was autogenerated by hardhat-viem, do not edit it.\n// prettier-ignore\n// tslint:disable\n// eslint-disable"

/-- One `name: never;` line of the global aggregate, as produced for each
duplicated bare name. -/
def neverEntry (name : String) : String :=
  name ++ ": never;"

/-- The list of `name: never;` lines of the global aggregate:
`contractNames.filter((name, i) => indexOf !== i).map(name => ...)`. -/
def neverEntries (contractNames : List String) : List String :=
  ((contractNames.enum.filter
    fun p => contractNames.indexOf p.2 != p.1).map fun p => neverEntry p.2)

/-- Embedding of `generateArtifactsDefinition`: the global `artifacts.d.ts`, marking
every duplicated bare name with the `never` type. -/
def generateArtifactsDefinition (contractNames : List String) : String :=
  AUTOGENERATED_FILE_PREFACE ++
    "\n\nimport \"hardhat/types/artifacts\";\n\ndeclare module \"hardhat/types/artifacts\" \x7b\n  interface ArtifactsMap \x7b\n    " ++
    joinSep "\n    " (neverEntries contractNames) ++
    "\n  \x7d\n\x7d\n"

/-- The constructor entry of the artifact's ABI, when present:
`artifact.abi.find(({ type }) => type === "constructor")`. -/
def constructorAbi (artifact : Artifact) : Option AbiEntry :=
  artifact.abi.find? fun e => e.type == "constructor"

/-- The constructor's declared inputs;
`constructorAbi !== undefined ? constructorAbi.inputs : []`. -/
def constructorInputs (artifact : Artifact) : List AbiParam :=
  match constructorAbi artifact with
  | some e => e.inputs
  | none => []

/-- One element of the deploy signature's argument list:
`AbiParameterToPrimitiveType<{"name":...,"type":...}>` derived from one
constructor input (`JSON.stringify({ name, type })`). -/
def abiParamArgType (p : AbiParam) : String :=
  "AbiParameterToPrimitiveType<\x7b\"name\":" ++ jsQuote p.name ++
    ",\"type\":" ++ jsQuote p.type ++ "\x7d>"

/-- The `constructorArgs` fragment of the deploy signature: a required
fixed-length tuple when the constructor has inputs, the optional empty
list otherwise. -/
def constructorArgsText (inputs : List AbiParam) : String :=
  if inputs.length > 0 then
    "constructorArgs: [" ++ joinSep ", " (inputs.map abiParamArgType) ++ "]"
  else
    "constructorArgs?: []"

/-- The `${contractName}$Type` interface name. -/
def contractTypeNameOf (artifact : Artifact) : String :=
  artifact.contractName ++ "$Type"

/-- The name variants a declaration binds:
`isDup ? [fqn] : [contractName, fqn]`. -/
def validNames (artifact : Artifact) (isDup : Bool) : List String :=
  let fqn := getFullyQualifiedName artifact.sourceName artifact.contractName
  if isDup then [fqn] else [artifact.contractName, fqn]

/-- Leading text of one `deployContract` declaration, up to the
`constructorArgs` fragment. -/
def deployPre (name : String) : String :=
  "export function deployContract(\n    contractName: \"" ++ name ++
    "\",\n    "

/-- Trailing text of one `deployContract` declaration, after the
`constructorArgs` fragment. -/
def deployPost (contractTypeName : String) : String :=
  ",\n    config?: DeployContractConfig\n  ): Promise<GetContractReturnType<" ++
    contractTypeName ++ "[\"abi\"]>>;"

/-- One `deployContract` declaration for one name variant. -/
def deployDeclFor (constructorArgs contractTypeName name : String) : String :=
  deployPre name ++ constructorArgs ++ deployPost contractTypeName

/-- One `getContractAt` declaration for one name variant. -/
def getContractAtDeclFor (contractTypeName name : String) : String :=
  "export function getContractAt(\n    contractName: \"" ++ name ++
    "\",\n    address: Address,\n    config?: GetContractAtConfig\n  ): Promise<GetContractReturnType<" ++
    contractTypeName ++ "[\"abi\"]>>;"

/-- The `deployContract` declarations of one generated file, one per valid
name variant. -/
def deployDecls (artifact : Artifact) (isDup : Bool) : List String :=
  (validNames artifact isDup).map
    (deployDeclFor (constructorArgsText (constructorInputs artifact))
      (contractTypeNameOf artifact))

/-- The `getContractAt` declarations of one generated file, one per valid
name variant. -/
def getContractAtDecls (artifact : Artifact) (isDup : Bool) : List String :=
  (validNames artifact isDup).map
    (getContractAtDeclFor (contractTypeNameOf artifact))

/-- The conditional import line: `AbiParameterToPrimitiveType` is imported
only when the constructor has inputs. -/
def importLine (inputs : List AbiParam) : String :=
  if inputs.length > 0 then
    "import type \x7b AbiParameterToPrimitiveType, GetContractReturnType \x7d from \"@nomicfoundation/hardhat-viem/types\";"
  else
    "import type \x7b GetContractReturnType \x7d from \"@nomicfoundation/hardhat-viem/types\";"

/-- Serialization of one ABI parameter inside the interface blob
(`JSON.stringify(artifact, undefined, 2)`). -/
def abiParamJson (p : AbiParam) : String :=
  "\x7b\n        \"internalType\": " ++ jsQuote p.internalType ++
    ",\n        \"name\": " ++ jsQuote p.name ++
    ",\n        \"type\": " ++ jsQuote p.type ++ "\n      \x7d"

/-- Serialization of one ABI entry inside the interface blob. -/
def abiEntryJson (e : AbiEntry) : String :=
  "\x7b\n      \"type\": " ++ jsQuote e.type ++
    ",\n      \"inputs\": [" ++ joinSep ", " (e.inputs.map abiParamJson) ++
    "]\n    \x7d"

/-- The artifact's JSON blob re-exported as the interface body:
`JSON.stringify(artifact, undefined, 2)` over the modelled fields. Its
exact layout is not load-bearing for any claim; what matters is that it is
a pure function of the artifact. -/
def artifactJson (a : Artifact) : String :=
  "\x7b\n  \"contractName\": " ++ jsQuote a.contractName ++
    ",\n  \"sourceName\": " ++ jsQuote a.sourceName ++
    ",\n  \"abi\": [" ++ joinSep ", " (a.abi.map abiEntryJson) ++ "]\n\x7d"

/-- Everything of the generated declaration before the `deployContract`
block: banner, imports, the interface re-export and the opening of the
`declare module` block. -/
def declarationHead (artifact : Artifact) : String :=
  AUTOGENERATED_FILE_PREFACE ++
    "\n\nimport type \x7b Address \x7d from \"viem\";\n" ++
    importLine (constructorInputs artifact) ++
    "\nimport \"@nomicfoundation/hardhat-viem/types\";\n\nexport interface " ++
    contractTypeNameOf artifact ++ " " ++ artifactJson artifact ++
    "\n\ndeclare module \"@nomicfoundation/hardhat-viem/types\" \x7b\n  "

/-- Everything of the generated declaration after the `deployContract`
block: the `getContractAt` block and the closing of the module. -/
def declarationFoot (artifact : Artifact) (isDup : Bool) : String :=
  "\n\n  " ++ joinSep "\n  " (getContractAtDecls artifact isDup) ++
    "\n\x7d\n"

/-- Embedding of `generateContractDeclaration(artifact, isDup)`: the whole generated
per-contract declaration file. -/
def generateContractDeclaration (artifact : Artifact) (isDup : Bool) : String :=
  declarationHead artifact ++
    joinSep "\n  " (deployDecls artifact isDup) ++
    declarationFoot artifact isDup

/-! ## Stale-output pruner

The `TASK_COMPILE_REMOVE_OBSOLETE_ARTIFACTS` override scans the artifacts
directory for paths ending in `file.d.ts`, derives each one's directory and
its source name relative to the artifacts root, and force-recursively
removes every directory whose source name is not among the currently
compiled source names. The file system is modelled as the list of file
paths it holds. -/

/-- Modelled from the spec: the file-system state seen by the pruner (the
host file system is an external service); it is just the set of existing
file paths, as a list. -/
structure FsState where
  files : List String
deriving DecidableEq, Repr

/-- Whether path `f` lies strictly inside directory `d`. -/
def underDir (d f : String) : Bool :=
  strStartsWith f (d ++ "/")

/-- Modelled from the spec: `rm(dir, { force: true, recursive: true })`
removes the directory and everything under it; force semantics make a
missing target a no-op, never an error, so the model is a total
function. -/
def rmRec (fs : FsState) (d : String) : FsState :=
  ⟨fs.files.filter fun f => !(f == d || underDir d f)⟩

/-- Modelled from the spec: Node's `path.dirname` for POSIX paths without
a trailing slash — all components but the last, `"."` for a bare name. -/
def dirname (p : String) : String :=
  let parts := jsSplit p '/'
  if parts.length ≤ 1 then "." else joinSep "/" parts.dropLast

/-- Modelled from the spec: Node's `path.relative(root, p)` for the case
the pruner relies on, `p` lying inside `root`. -/
def pathRelative (root p : String) : String :=
  let pre := (root ++ "/").toList
  if pre.isPrefixOf p.toList then String.mk (p.toList.drop pre.length) else p

/-- Modelled from the spec: `getAllFilesMatching(dir, pred)` lists every
file under `dir` satisfying the predicate. -/
def getAllFilesMatching (fs : FsState) (dir : String)
    (pred : String → Bool) : List String :=
  fs.files.filter fun f => underDir dir f && pred f

/-- The pruner's `for` loop over the discovered `file.d.ts` paths: derive
the directory and its source name, and remove the directory when the
source name is not in the current set. Returns the final file system and
the list of directories passed to `rm`, in order. -/
def pruneLoop (existing : List String) (root : String) :
    List String → FsState → FsState × List String
  | [], fs => (fs, [])
  | fileDTs :: rest, fs =>
    let dir := dirname fileDTs
    let sourceName := pathRelative root dir
    if existing.contains sourceName then
      pruneLoop existing root rest fs
    else
      let r := pruneLoop existing root rest (rmRec fs dir)
      (r.1, dir :: r.2)

/-- The whole `TASK_COMPILE_REMOVE_OBSOLETE_ARTIFACTS` action: compute the
current source names from the fully qualified names, discover the sentinel
`file.d.ts` paths, and run the removal loop. -/
def removeObsoleteArtifactsAction (artifactsPath : String)
    (fqns : List String) (fs : FsState) : FsState × List String :=
  let existingSourceFiles := fqns.map sourceNameOf
  let allFilesDTs :=
    getAllFilesMatching fs artifactsPath fun f => strEndsWith f "file.d.ts"
  pruneLoop existingSourceFiles artifactsPath allFilesDTs fs

/-- Directories the pruner removes. -/
def removedDirs (artifactsPath : String) (fqns : List String)
    (fs : FsState) : List String :=
  (removeObsoleteArtifactsAction artifactsPath fqns fs).2

/-- File system left behind by the pruner. -/
def prunedFs (artifactsPath : String) (fqns : List String)
    (fs : FsState) : FsState :=
  (removeObsoleteArtifactsAction artifactsPath fqns fs).1

/-! ## Version notifier

`showNewVersionNotification` is embedded as a pure function from its
environment (the results of the external fetches, the semver library and
the clock) and the in-memory cache record to the ordered list of effects
it performs: fetches, printed notices and the final cache write. -/

/-- A GitHub release asset (`{ name, browser_download_url }`). -/
structure Asset where
  name : String
  browser_download_url : String
deriving DecidableEq, Repr

/-- A GitHub release descriptor, with the fields the notifier consumes. -/
structure Release where
  name : String
  tag_name : String
  draft : Bool
  prerelease : Bool
  published_at : String
  html_url : String
  assets : List Asset
  body : String
deriving DecidableEq, Repr

/-- The in-memory `VersionNotifierCache` record. `lastCheck` is
`string | 0` in the source; `none` models the number `0` (the epoch). -/
structure VersionNotifierCache where
  lastCheck : Option String
  v3TimesShown : Nat
  v3Release : Option Release
  v3ReleaseMessage : Option String
deriving DecidableEq, Repr

/-- The JSON object parsed from the persisted cache file: each field is
present (`some`) only when the file holds it with the right runtime type
(`typeof lastCheck === "string"`, `typeof v3TimesShown === "number"`). -/
structure ParsedCacheFile where
  lastCheckStr : Option String
  v3TimesShownNum : Option Nat
  v3ReleaseJson : Option Release
  v3ReleaseMessageJson : Option String
deriving DecidableEq, Repr

/-- Embedding of `readCache`: on any read or parse failure the zero/epoch default;
otherwise a record rebuilt from `lastCheck` and `v3TimesShown` ONLY — the
destructuring `const { lastCheck, v3TimesShown } = JSON.parse(...)`
discards any persisted `v3Release` / `v3ReleaseMessage`. -/
def readCache : Option ParsedCacheFile → VersionNotifierCache
  | none =>
    { lastCheck := none, v3TimesShown := 0
      v3Release := none, v3ReleaseMessage := none }
  | some f =>
    { lastCheck := f.lastCheckStr, v3TimesShown := f.v3TimesShownNum.getD 0
      v3Release := none, v3ReleaseMessage := none }

/-- Reading back what `writeCache` wrote: `writeCache` serializes the record with `JSON.stringify`; reading the
resulting file back parses exactly the written fields. -/
def fileOfCache (c : VersionNotifierCache) : ParsedCacheFile :=
  { lastCheckStr := c.lastCheck, v3TimesShownNum := some c.v3TimesShown
    v3ReleaseJson := c.v3Release, v3ReleaseMessageJson := c.v3ReleaseMessage }

/-- The notifier's external world: results of the GitHub fetches
(`getReleases` already returns its list sorted by publish time and `[]` on
failure; `getV3Release` and `getV3ReleaseMessage` return `none` on any
failure, including the mapped "Not Found"), the semver library, and the
`Date` conversions, all black boxes to this module. -/
structure NotifierEnv where
  hardhatVersion : String
  releases : List Release
  v3ReleaseFetch : Option Release
  v3MessageFetch : Release → Option String
  semverValid : String → Option String
  semverMajor : String → Nat
  semverGt : String → String → Bool
  parseDate : String → Int
  isoOfTime : Int → String

/-- One observable step of the notifier: a network fetch, a printed boxed
notice (identified by its determining content), or the cache write. -/
inductive Effect where
  | fetchReleases : Effect
  | fetchV3Release : Effect
  | fetchV3Message : Release → Effect
  | printV2Notice : String → String → Effect
  | printV3Notice : String → Effect
  | writeCacheFile : VersionNotifierCache → Effect
deriving DecidableEq, Repr

/-- Source constant `oneDay = 1000 * 60 * 60 * 24`. -/
def oneDay : Int := 1000 * 60 * 60 * 24

/-- Source constant `V3_RELEASE_MAX_TIMES_SHOWN = 5`. -/
def V3_RELEASE_MAX_TIMES_SHOWN : Nat := 5

/-- Source constant `GITHUB_REPO = "hardhat"`. -/
def GITHUB_REPO : String := "hardhat"

/-- Model of `new Date(cache.lastCheck).getTime()`: epoch for the numeric `0`,
parsed time for a stored ISO string. -/
def lastCheckTime (env : NotifierEnv) (cache : VersionNotifierCache) : Int :=
  match cache.lastCheck with
  | none => 0
  | some s => env.parseDate s

/-- The predicate of the lane-1 `releases.find(...)`: a non-draft
non-prerelease release whose tag decodes to package `hardhat` at a valid
semver of major version 2. -/
def isCandidateV2 (env : NotifierEnv) (r : Release) : Bool :=
  if r.draft || r.prerelease then false
  else
    let parts := jsSplit r.tag_name '@'
    let packageName := parts.headD ""
    match parts[1]? with
    | none => false
    | some pv =>
      packageName == GITHUB_REPO && (env.semverValid pv).isSome &&
        env.semverMajor pv == 2

/-- Lane 1 lookup `releases.find(...)`. -/
def latestV2Release (env : NotifierEnv) : Option Release :=
  env.releases.find? (isCandidateV2 env)

/-- Resolution `cache.v3Release ?? (await getV3Release())`. -/
def resolvedV3 (env : NotifierEnv) (cache : VersionNotifierCache) :
    Option Release :=
  match cache.v3Release with
  | some r => some r
  | none => env.v3ReleaseFetch

/-- The decoded, validated version of a release tag:
`semver.valid(release.tag_name.split("@")[1])`. -/
def tagVersion (env : NotifierEnv) (r : Release) : Option String :=
  (jsSplit r.tag_name '@')[1]?.bind env.semverValid

/-- Lane 1: print the stable-line notice when the found release's decoded
version is valid and exceeds the running version. -/
def lane1Effects (env : NotifierEnv) : Option Release → List Effect
  | none => []
  | some r =>
    match tagVersion env r with
    | none => []
    | some rv =>
      if env.semverGt rv env.hardhatVersion then
        [Effect.printV2Notice env.hardhatVersion rv]
      else []

/-- Lane 2: when a pinned release is at hand with a valid tag version and
the shown-count is below the cap, resolve the message
(`cache.v3ReleaseMessage ?? (await getV3ReleaseMessage(v3Release))`),
print it when present and bump the count. Returns the lane's effects, the
resulting `v3ReleaseMessage` and the resulting `v3TimesShown`. -/
def lane2Result (env : NotifierEnv) (cache : VersionNotifierCache) :
    Option Release → List Effect × Option String × Nat
  | none => ([], cache.v3ReleaseMessage, cache.v3TimesShown)
  | some r =>
    match tagVersion env r with
    | none => ([], cache.v3ReleaseMessage, cache.v3TimesShown)
    | some _ =>
      if cache.v3TimesShown < V3_RELEASE_MAX_TIMES_SHOWN then
        let fetchFx : List Effect :=
          match cache.v3ReleaseMessage with
          | some _ => []
          | none => [Effect.fetchV3Message r]
        let msg :=
          match cache.v3ReleaseMessage with
          | some m => some m
          | none => env.v3MessageFetch r
        match msg with
        | some m =>
          (fetchFx ++ [Effect.printV3Notice m], some m, cache.v3TimesShown + 1)
        | none => (fetchFx, none, cache.v3TimesShown)
      else ([], cache.v3ReleaseMessage, cache.v3TimesShown)

/-- The fetches that precede the lanes: the release-list fetch always, the
pinned-release fetch only when no in-memory descriptor exists
(`cache.v3Release ?? (await getV3Release())`). -/
def preEffects (cache : VersionNotifierCache) : List Effect :=
  Effect.fetchReleases ::
    (match cache.v3Release with
     | none => [Effect.fetchV3Release]
     | some _ => [])

/-- The record handed to `writeCache` at the end of a non-short-circuited
invocation: the spread of the (lane-2-mutated) cache with `lastCheck` set
to the current time and `v3Release` set to the resolved descriptor. -/
def writtenRecord (env : NotifierEnv) (cache : VersionNotifierCache)
    (now : Int) : VersionNotifierCache :=
  { lastCheck := some (env.isoOfTime now)
    v3TimesShown := (lane2Result env cache (resolvedV3 env cache)).2.2
    v3Release := resolvedV3 env cache
    v3ReleaseMessage := (lane2Result env cache (resolvedV3 env cache)).2.1 }

/-- Embedding of `showNewVersionNotification`, as the ordered list of effects of one
invocation: nothing under the 24-hour guard; otherwise the release-list
fetch, the pinned-release fetch when no in-memory descriptor exists, an
early return when both lookups came back empty, and otherwise both lanes
followed by the unconditional cache write. -/
def showNewVersionNotification (env : NotifierEnv)
    (cache : VersionNotifierCache) (now : Int) : List Effect :=
  if now - lastCheckTime env cache < oneDay then []
  else if (latestV2Release env).isNone && (resolvedV3 env cache).isNone then
    preEffects cache
  else
    preEffects cache ++ lane1Effects env (latestV2Release env) ++
      (lane2Result env cache (resolvedV3 env cache)).1 ++
      [Effect.writeCacheFile (writtenRecord env cache now)]

/-- Whether an effect is the cache write. -/
def isWrite : Effect → Bool
  | Effect.writeCacheFile _ => true
  | _ => false

/-- Whether an effect is the lane-1 printed notice. -/
def isPrintV2 : Effect → Bool
  | Effect.printV2Notice _ _ => true
  | _ => false

/-- Whether an effect is the lane-2 printed notice. -/
def isPrintV3 : Effect → Bool
  | Effect.printV3Notice _ => true
  | _ => false

/-- The cache record written during an invocation, when any. -/
def writtenCache : List Effect → Option VersionNotifierCache
  | [] => none
  | Effect.writeCacheFile c :: _ => some c
  | _ :: rest => writtenCache rest

/-- Whether an invocation printed the lane-1 (stable-line) notice. -/
def printsV2 (fx : List Effect) : Bool := fx.any isPrintV2

/-- Whether an invocation printed the lane-2 (pinned-release) notice. -/
def printsV3 (fx : List Effect) : Bool := fx.any isPrintV3

/-- One full process run of the notifier against the persisted cache file:
read the file, run the invocation, persist the written record when the
invocation wrote one. -/
def runOnce (file : Option ParsedCacheFile) (env : NotifierEnv)
    (now : Int) : List Effect × Option ParsedCacheFile :=
  let effects := showNewVersionNotification env (readCache file) now
  match writtenCache effects with
  | some c => (effects, some (fileOfCache c))
  | none => (effects, file)

/-- A sequence of notifier invocations threaded through the persisted
cache file, returning each invocation's effects. -/
def runSeq (file : Option ParsedCacheFile) :
    List (NotifierEnv × Int) → List (List Effect)
  | [] => []
  | (env, now) :: rest =>
    let r := runOnce file env now
    r.1 :: runSeq r.2 rest

/-- The shown-count as recovered from the persisted cache file. -/
def fileShownCount (file : Option ParsedCacheFile) : Nat :=
  (readCache file).v3TimesShown

/-! ## Concrete fixtures used by witnesses and counterexamples -/

/-- A one-parameter constructor input used in witnesses. -/
def paramX : AbiParam :=
  { internalType := "uint256", name := "x", type := "uint256" }

/-- An artifact whose constructor takes one parameter. -/
def artifactW : Artifact :=
  { contractName := "Counter", sourceName := "contracts/Counter.sol",
    abi := [{ type := "constructor", inputs := [paramX] }] }

/-- An artifact whose ABI has no constructor entry at all. -/
def artifactNoCtor : Artifact :=
  { contractName := "Empty", sourceName := "contracts/Empty.sol",
    abi := [{ type := "function", inputs := [] }] }

/-- A notifier environment in which every external lookup fails. -/
def envFail : NotifierEnv :=
  { hardhatVersion := "2.26.0", releases := [], v3ReleaseFetch := none,
    v3MessageFetch := fun _ => none, semverValid := fun _ => none,
    semverMajor := fun _ => 0, semverGt := fun _ _ => false,
    parseDate := fun _ => 0, isoOfTime := fun _ => "NOW" }

/-- The zero/epoch default cache record. -/
def cache0 : VersionNotifierCache :=
  { lastCheck := none, v3TimesShown := 0, v3Release := none,
    v3ReleaseMessage := none }

/-- A pinned (v3) release descriptor. -/
def rel3 : Release :=
  { name := "Hardhat 3", tag_name := "hardhat@3.0.0", draft := false,
    prerelease := false, published_at := "2025-01-01T00:00:00Z",
    html_url := "", assets := [], body := "" }

/-- An environment whose pinned-release fetch succeeds. -/
def envPinned : NotifierEnv :=
  { envFail with v3ReleaseFetch := some rel3 }

/-- A persisted cache file that DOES contain a pinned release descriptor
and a cached message. -/
def fileV3 : ParsedCacheFile :=
  { lastCheckStr := none, v3TimesShownNum := some 0,
    v3ReleaseJson := some rel3, v3ReleaseMessageJson := some "cached" }

/-- A persisted cache file whose shown-count has reached the cap. -/
def fileCap : ParsedCacheFile :=
  { lastCheckStr := none, v3TimesShownNum := some 5,
    v3ReleaseJson := none, v3ReleaseMessageJson := none }

/-- The fully qualified names of the pruner scenario: sources X and Y. -/
def fqnsW : List String := ["contracts/X.sol:X", "contracts/Y.sol:Y"]

/-- The pruner scenario file system: output directories for X, Y and Z,
each discovered through its `file.d.ts` sentinel. -/
def fsW : FsState :=
  ⟨["artifacts/contracts/X.sol/file.d.ts", "artifacts/contracts/X.sol/X.d.ts",
    "artifacts/contracts/Y.sol/file.d.ts", "artifacts/contracts/Z.sol/file.d.ts",
    "artifacts/contracts/Z.sol/Z.d.ts"]⟩

/-! ## Helper lemmas -/

theorem bnot_eq_true {a : Bool} : (!a) = true ↔ a = false := by
  cases a <;> simp

theorem toList_append (s t : String) : (s ++ t).toList = s.toList ++ t.toList := by
  cases s
  cases t
  rfl

theorem mem_joinSep_infix (sep : String) :
    ∀ (l : List String) (a : String), a ∈ l → a.toList <:+: (joinSep sep l).toList := by
  intro l
  induction l with
  | nil => intro a h; cases h
  | cons x xs ih =>
    intro a h
    cases xs with
    | nil =>
      rcases List.mem_singleton.mp h with rfl
      exact ⟨[], [], by simp [joinSep]⟩
    | cons y ys =>
      rcases List.mem_cons.mp h with rfl | hmem
      · refine ⟨[], (sep ++ joinSep sep (y :: ys)).toList, ?_⟩
        simp [joinSep, toList_append, List.append_assoc]
      · rcases ih a hmem with ⟨b, c, hb⟩
        refine ⟨(x ++ sep).toList ++ b, c, ?_⟩
        have hb2 : b ++ (a.toList ++ c) = (joinSep sep (y :: ys)).toList := by
          rw [← List.append_assoc]
          exact hb
        simp only [joinSep, toList_append, List.append_assoc]
        rw [hb2]

theorem dup_mem_iff (names : List String) (name : String) :
    name ∈ dupContractNames names ↔
      ∃ i, names[i]? = some name ∧ names.indexOf name ≠ i := by
  unfold dupContractNames
  constructor
  · intro h
    rcases List.mem_map.mp h with ⟨p, hp, hsnd⟩
    rcases List.mem_filter.mp hp with ⟨henum, hcond⟩
    refine ⟨p.1, ?_, ?_⟩
    · rw [← hsnd]
      exact List.mk_mem_enum_iff_getElem?.mp (by simpa using henum)
    · rw [← hsnd]
      simpa using hcond
  · rintro ⟨i, hget, hne⟩
    refine List.mem_map.mpr ⟨(i, name), List.mem_filter.mpr ⟨?_, ?_⟩, rfl⟩
    · exact List.mk_mem_enum_iff_getElem?.mpr hget
    · simpa using hne

theorem neverEntry_inj {a b : String} (h : neverEntry a = neverEntry b) : a = b := by
  unfold neverEntry at h
  have h2 : a.toList ++ ": never;".toList = b.toList ++ ": never;".toList := by
    rw [← toList_append, ← toList_append, h]
  exact String.toList_inj.mp (List.append_cancel_right h2)

theorem neverEntries_eq (names : List String) :
    neverEntries names = (dupContractNames names).map neverEntry := by
  unfold neverEntries dupContractNames
  rw [List.map_map]
  rfl

theorem neverEntry_mem_iff (names : List String) (name : String) :
    neverEntry name ∈ neverEntries names ↔ name ∈ dupContractNames names := by
  rw [neverEntries_eq]
  constructor
  · intro h
    rcases List.mem_map.mp h with ⟨x, hx, he⟩
    rwa [← neverEntry_inj he]
  · intro h
    exact List.mem_map_of_mem _ h

theorem two_pos_dup (names : List String) (name : String) (i j : Nat)
    (hij : i ≠ j) (hi : names[i]? = some name) (hj : names[j]? = some name) :
    name ∈ dupContractNames names := by
  rcases eq_or_ne (names.indexOf name) i with hidx | hidx
  · exact (dup_mem_iff names name).mpr ⟨j, hj, by omega⟩
  · exact (dup_mem_iff names name).mpr ⟨i, hi, hidx⟩

theorem writtenCache_append (l1 l2 : List Effect)
    (h : ∀ e ∈ l1, isWrite e = false) :
    writtenCache (l1 ++ l2) = writtenCache l2 := by
  induction l1 with
  | nil => rfl
  | cons e es ih =>
    have he : isWrite e = false := h e (List.mem_cons_self _ _)
    have hr := ih fun x hx => h x (List.mem_cons_of_mem _ hx)
    cases e with
    | writeCacheFile c => simp [isWrite] at he
    | fetchReleases => simpa [writtenCache] using hr
    | fetchV3Release => simpa [writtenCache] using hr
    | fetchV3Message r => simpa [writtenCache] using hr
    | printV2Notice a b => simpa [writtenCache] using hr
    | printV3Notice m => simpa [writtenCache] using hr

theorem preEffects_flags (cache : VersionNotifierCache) :
    ∀ e ∈ preEffects cache,
      isWrite e = false ∧ isPrintV2 e = false ∧ isPrintV3 e = false := by
  intro e he
  unfold preEffects at he
  rcases List.mem_cons.mp he with rfl | hr
  · exact ⟨rfl, rfl, rfl⟩
  · cases hv : cache.v3Release with
    | none =>
      rw [hv] at hr
      rcases List.mem_singleton.mp hr with rfl
      exact ⟨rfl, rfl, rfl⟩
    | some rel =>
      rw [hv] at hr
      cases hr

theorem lane1_flags (env : NotifierEnv) (r : Option Release) :
    ∀ e ∈ lane1Effects env r, isWrite e = false ∧ isPrintV3 e = false := by
  intro e he
  cases r with
  | none => cases he
  | some rel =>
    cases htv : tagVersion env rel with
    | none => simp [lane1Effects, htv] at he
    | some rv =>
      simp only [lane1Effects, htv] at he
      cases hgt : env.semverGt rv env.hardhatVersion with
      | true =>
        rw [hgt, if_pos rfl] at he
        rcases List.mem_singleton.mp he with rfl
        exact ⟨rfl, rfl⟩
      | false =>
        rw [hgt] at he
        simp at he

theorem lane2_flags (env : NotifierEnv) (cache : VersionNotifierCache)
    (r : Option Release) :
    ∀ e ∈ (lane2Result env cache r).1,
      isWrite e = false ∧ isPrintV2 e = false := by
  intro e he
  cases r with
  | none => cases he
  | some rel =>
    cases htv : tagVersion env rel with
    | none => simp [lane2Result, htv] at he
    | some rv =>
      simp only [lane2Result, htv] at he
      by_cases hlt : cache.v3TimesShown < V3_RELEASE_MAX_TIMES_SHOWN
      · rw [if_pos hlt] at he
        cases hm : cache.v3ReleaseMessage with
        | some m =>
          simp only [hm] at he
          rcases List.mem_singleton.mp he with rfl
          exact ⟨rfl, rfl⟩
        | none =>
          simp only [hm] at he
          cases hf : env.v3MessageFetch rel with
          | some m =>
            simp only [hf] at he
            rcases List.mem_append.mp he with hf2 | hp
            · rcases List.mem_singleton.mp hf2 with rfl
              exact ⟨rfl, rfl⟩
            · rcases List.mem_singleton.mp hp with rfl
              exact ⟨rfl, rfl⟩
          | none =>
            simp only [hf] at he
            rcases List.mem_singleton.mp he with rfl
            exact ⟨rfl, rfl⟩
      · rw [if_neg hlt] at he
        cases he

theorem lane2_capped (env : NotifierEnv) (cache : VersionNotifierCache)
    (r : Option Release) (h : V3_RELEASE_MAX_TIMES_SHOWN ≤ cache.v3TimesShown) :
    lane2Result env cache r = ([], cache.v3ReleaseMessage, cache.v3TimesShown) := by
  cases r with
  | none => rfl
  | some rel =>
    cases htv : tagVersion env rel with
    | none => simp [lane2Result, htv]
    | some rv =>
      simp only [lane2Result, htv]
      rw [if_neg (by omega)]

theorem writtenCache_preEffects (cache : VersionNotifierCache) :
    writtenCache (preEffects cache) = none := by
  unfold preEffects
  cases cache.v3Release <;> rfl

theorem show_writtenCache (env : NotifierEnv) (cache : VersionNotifierCache)
    (now : Int) :
    writtenCache (showNewVersionNotification env cache now) = none ∨
    writtenCache (showNewVersionNotification env cache now) =
      some (writtenRecord env cache now) := by
  unfold showNewVersionNotification
  split
  · left; rfl
  · split
    · left
      exact writtenCache_preEffects cache
    · right
      have hno : ∀ e ∈ preEffects cache ++ lane1Effects env (latestV2Release env) ++
          (lane2Result env cache (resolvedV3 env cache)).1, isWrite e = false := by
        intro e he
        rcases List.mem_append.mp he with h1 | h2
        · rcases List.mem_append.mp h1 with hp | hl
          · exact (preEffects_flags cache e hp).1
          · exact (lane1_flags env _ e hl).1
        · exact (lane2_flags env cache _ e h2).1
      rw [writtenCache_append _ _ hno]
      rfl

theorem show_printsV3_capped (env : NotifierEnv) (cache : VersionNotifierCache)
    (now : Int) (h : V3_RELEASE_MAX_TIMES_SHOWN ≤ cache.v3TimesShown) :
    printsV3 (showNewVersionNotification env cache now) = false := by
  unfold showNewVersionNotification
  split
  · rfl
  · have hpre : (preEffects cache).any isPrintV3 = false :=
      List.any_eq_false.mpr fun e he => by
        simp [(preEffects_flags cache e he).2.2]
    split
    · exact hpre
    · simp only [printsV3, List.any_append, hpre, lane2_capped env cache _ h]
      have hl1 : (lane1Effects env (latestV2Release env)).any isPrintV3 = false :=
        List.any_eq_false.mpr fun e he => by
          simp [(lane1_flags env _ e he).2]
      simp [hl1, isPrintV3]

theorem show_written_count_capped (env : NotifierEnv)
    (cache : VersionNotifierCache) (now : Int)
    (h : V3_RELEASE_MAX_TIMES_SHOWN ≤ cache.v3TimesShown) :
    (writtenRecord env cache now).v3TimesShown = cache.v3TimesShown := by
  unfold writtenRecord
  rw [lane2_capped env cache _ h]

theorem c6_step (env : NotifierEnv) (now : Int) (file : Option ParsedCacheFile)
    (h : V3_RELEASE_MAX_TIMES_SHOWN ≤ fileShownCount file) :
    printsV3 (runOnce file env now).1 = false ∧
    V3_RELEASE_MAX_TIMES_SHOWN ≤ fileShownCount (runOnce file env now).2 := by
  unfold runOnce
  rcases show_writtenCache env (readCache file) now with hw | hw
  · simp only [hw]
    exact ⟨show_printsV3_capped env _ now h, h⟩
  · simp only [hw]
    refine ⟨show_printsV3_capped env _ now h, ?_⟩
    show V3_RELEASE_MAX_TIMES_SHOWN ≤
      (readCache (some (fileOfCache (writtenRecord env (readCache file) now)))).v3TimesShown
    have he : (readCache (some (fileOfCache (writtenRecord env (readCache file) now)))).v3TimesShown =
        (writtenRecord env (readCache file) now).v3TimesShown := rfl
    rw [he, show_written_count_capped env _ now h]
    exact h

theorem c6_seq : ∀ (invs : List (NotifierEnv × Int)) (file : Option ParsedCacheFile),
    V3_RELEASE_MAX_TIMES_SHOWN ≤ fileShownCount file →
    ∀ fx ∈ runSeq file invs, printsV3 fx = false := by
  intro invs
  induction invs with
  | nil =>
    intro file h fx hfx
    cases hfx
  | cons p rest ih =>
    intro file h fx hfx
    obtain ⟨env, now⟩ := p
    simp only [runSeq] at hfx
    rcases List.mem_cons.mp hfx with rfl | hmem
    · exact (c6_step env now file h).1
    · exact ih _ (c6_step env now file h).2 fx hmem

theorem printsV2_count (env : NotifierEnv) (cache : VersionNotifierCache)
    (now : Int) (n : Nat) :
    printsV2 (showNewVersionNotification env { cache with v3TimesShown := n } now) =
      printsV2 (showNewVersionNotification env cache now) := by
  unfold showNewVersionNotification
  have h1 : lastCheckTime env { cache with v3TimesShown := n } = lastCheckTime env cache := rfl
  have h2 : resolvedV3 env { cache with v3TimesShown := n } = resolvedV3 env cache := rfl
  have h3 : preEffects { cache with v3TimesShown := n } = preEffects cache := rfl
  rw [h1, h2, h3]
  split
  · rfl
  · split
    · rfl
    · have hl2a : ((lane2Result env { cache with v3TimesShown := n }
          (resolvedV3 env cache)).1).any isPrintV2 = false :=
        List.any_eq_false.mpr fun e he => by
          simp [(lane2_flags env _ _ e he).2]
      have hl2b : ((lane2Result env cache (resolvedV3 env cache)).1).any isPrintV2 = false :=
        List.any_eq_false.mpr fun e he => by
          simp [(lane2_flags env _ _ e he).2]
      simp [printsV2, List.any_append, hl2a, hl2b, isPrintV2]

theorem pruneLoop_cons (existing : List String) (root x : String)
    (rest : List String) (fs : FsState) :
    pruneLoop existing root (x :: rest) fs =
      if existing.contains (pathRelative root (dirname x)) = true then
        pruneLoop existing root rest fs
      else
        ((pruneLoop existing root rest (rmRec fs (dirname x))).1,
          dirname x :: (pruneLoop existing root rest (rmRec fs (dirname x))).2) := rfl

theorem pruneLoop_removed (existing : List String) (root : String) :
    ∀ (todo : List String) (fs : FsState),
      (pruneLoop existing root todo fs).2 =
        (todo.filter fun x =>
          !(existing.contains (pathRelative root (dirname x)))).map dirname := by
  intro todo
  induction todo with
  | nil => intro fs; rfl
  | cons x rest ih =>
    intro fs
    rw [pruneLoop_cons]
    cases hc : existing.contains (pathRelative root (dirname x)) with
    | true =>
      rw [if_pos rfl]
      rw [ih fs, List.filter_cons_of_neg (by simpa using hc)]
    | false =>
      rw [if_neg (by simp)]
      show dirname x :: (pruneLoop existing root rest (rmRec fs (dirname x))).2 = _
      rw [ih, List.filter_cons_of_pos (by simpa using hc), List.map_cons]

theorem rmRec_files (fs : FsState) (d : String) :
    (rmRec fs d).files = fs.files.filter fun f => !(f == d || underDir d f) := rfl

theorem pruneLoop_files (existing : List String) (root : String) :
    ∀ (todo : List String) (fs : FsState),
      ((pruneLoop existing root todo fs).1).files =
        fs.files.filter fun f =>
          !((pruneLoop existing root todo fs).2).any fun d =>
            f == d || underDir d f := by
  intro todo
  induction todo with
  | nil =>
    intro fs
    simp [pruneLoop, List.filter_true]
  | cons x rest ih =>
    intro fs
    rw [pruneLoop_cons]
    cases hc : existing.contains (pathRelative root (dirname x)) with
    | true =>
      rw [if_pos rfl]
      exact ih fs
    | false =>
      rw [if_neg (by simp)]
      show (pruneLoop existing root rest (rmRec fs (dirname x))).1.files = _
      rw [ih (rmRec fs (dirname x)), rmRec_files, List.filter_filter]
      apply List.filter_congr
      intro f hf
      simp only [List.any_cons, Bool.not_or, Bool.and_comm]

/-! ## Claims -/

/-- C1: for every artifact, a constructor with zero parameters makes
`generateContractDeclaration` emit the optional argument list
`constructorArgs?: []` in the deploy signature, while a constructor with
one or more parameters makes it emit a required fixed-length list holding
exactly one element type per constructor input, in the order of the
declared inputs; the fragment occurs verbatim inside the generated
declaration text. -/
theorem c1_deploy_constructor_args (a : Artifact) (d : Bool) :
    ((constructorInputs a).length = 0 →
      constructorArgsText (constructorInputs a) = "constructorArgs?: []") ∧
    (0 < (constructorInputs a).length →
      constructorArgsText (constructorInputs a) =
        "constructorArgs: [" ++
          joinSep ", " ((constructorInputs a).map abiParamArgType) ++ "]" ∧
      ((constructorInputs a).map abiParamArgType).length =
        (constructorInputs a).length ∧
      ∀ i : Nat, ((constructorInputs a).map abiParamArgType)[i]? =
        ((constructorInputs a)[i]?).map abiParamArgType) ∧
    (constructorArgsText (constructorInputs a)).toList <:+:
      (generateContractDeclaration a d).toList := by
  refine ⟨?_, ?_, ?_⟩
  · intro h
    simp [constructorArgsText, h]
  · intro h
    refine ⟨?_, List.length_map _ _, ?_⟩
    · simp [constructorArgsText, h]
    · intro i
      exact List.getElem?_map _ _ _
  · have hmem : deployDeclFor (constructorArgsText (constructorInputs a))
        (contractTypeNameOf a)
        (getFullyQualifiedName a.sourceName a.contractName) ∈ deployDecls a d := by
      cases d <;> simp [deployDecls, validNames]
    have h1 : (constructorArgsText (constructorInputs a)).toList <:+:
        (deployDeclFor (constructorArgsText (constructorInputs a))
          (contractTypeNameOf a)
          (getFullyQualifiedName a.sourceName a.contractName)).toList := by
      refine ⟨(deployPre (getFullyQualifiedName a.sourceName a.contractName)).toList,
        (deployPost (contractTypeNameOf a)).toList, ?_⟩
      simp [deployDeclFor, toList_append, List.append_assoc]
    have h2 := mem_joinSep_infix "\n  " (deployDecls a d) _ hmem
    have h3 : (joinSep "\n  " (deployDecls a d)).toList <:+:
        (generateContractDeclaration a d).toList := by
      refine ⟨(declarationHead a).toList, (declarationFoot a d).toList, ?_⟩
      simp [generateContractDeclaration, toList_append, List.append_assoc]
    exact (h1.trans h2).trans h3

/-- C1 witness: the deploy-signature fragment evaluated at an artifact with
no constructor parameters and at one with a single `uint256` parameter. -/
theorem c1_deploy_constructor_args_witness :
    constructorArgsText (constructorInputs artifactNoCtor) = "constructorArgs?: []" ∧
    constructorArgsText (constructorInputs artifactW) =
      "constructorArgs: [" ++
        joinSep ", " ((constructorInputs artifactW).map abiParamArgType) ++ "]" := by
  constructor
  · exact (c1_deploy_constructor_args artifactNoCtor true).1 (by decide)
  · exact ((c1_deploy_constructor_args artifactW true).2.1 (by decide)).1

/-- C2: a declaration generated with the duplicate flag set binds
`deployContract` and `getContractAt` to the QualifiedName variant only,
while a unique bare name gets both the bare and the qualified variant; the
global aggregate carries a `name: never;` entry exactly for the duplicated
bare names, and any name occurring at two distinct positions of the
contract-name list is flagged as duplicated. -/
theorem c2_duplicate_name_bindings (a : Artifact) (names : List String)
    (name : String) :
    (deployDecls a true =
      [deployDeclFor (constructorArgsText (constructorInputs a))
        (contractTypeNameOf a)
        (getFullyQualifiedName a.sourceName a.contractName)]) ∧
    (getContractAtDecls a true =
      [getContractAtDeclFor (contractTypeNameOf a)
        (getFullyQualifiedName a.sourceName a.contractName)]) ∧
    (deployDecls a false =
      [deployDeclFor (constructorArgsText (constructorInputs a))
        (contractTypeNameOf a) a.contractName,
       deployDeclFor (constructorArgsText (constructorInputs a))
        (contractTypeNameOf a)
        (getFullyQualifiedName a.sourceName a.contractName)]) ∧
    (getContractAtDecls a false =
      [getContractAtDeclFor (contractTypeNameOf a) a.contractName,
       getContractAtDeclFor (contractTypeNameOf a)
        (getFullyQualifiedName a.sourceName a.contractName)]) ∧
    (neverEntry name ∈ neverEntries names ↔ name ∈ dupContractNames names) ∧
    (∀ i j : Nat, i ≠ j → names[i]? = some name → names[j]? = some name →
      name ∈ dupContractNames names) := by
  refine ⟨rfl, rfl, rfl, rfl, neverEntry_mem_iff names name, ?_⟩
  intro i j hij hi hj
  exact two_pos_dup names name i j hij hi hj

/-- C2 witness: in the list `["A", "B", "A", "C"]` the name `A` occurs at
positions 0 and 2, is therefore flagged as duplicated, and is marked
`A: never;` in the global aggregate. -/
theorem c2_duplicate_name_bindings_witness :
    "A" ∈ dupContractNames ["A", "B", "A", "C"] ∧
    neverEntry "A" ∈ neverEntries ["A", "B", "A", "C"] := by
  have h := c2_duplicate_name_bindings artifactW ["A", "B", "A", "C"] "A"
  have hdup := h.2.2.2.2.2 0 2 (by decide) (by decide) (by decide)
  exact ⟨hdup, (h.2.2.2.2.1).mpr hdup⟩

/-- C3 counterexample: with the guard inactive (exactly one day elapsed
since the epoch `lastCheck`) but both release lookups empty, the
invocation performs its two fetches and returns WITHOUT writing the cache
file, refuting the claim that every non-short-circuited invocation
rewrites the cache. -/
theorem c3_counterexample :
    decide (oneDay - lastCheckTime envFail cache0 < oneDay) = false ∧
    writtenCache (showNewVersionNotification envFail cache0 oneDay) = none ∧
    showNewVersionNotification envFail cache0 oneDay =
      [Effect.fetchReleases, Effect.fetchV3Release] := by
  refine ⟨by decide, by decide, by decide⟩

/-- C3 (amended): whenever the 24-hour guard does not short-circuit AND at
least one of the two release lookups yields a release, the invocation's
last effect is the cache write, whose record carries `lastCheck` set to
the current time. -/
theorem c3_cache_rewrite (env : NotifierEnv) (cache : VersionNotifierCache)
    (now : Int)
    (hguard : ¬ now - lastCheckTime env cache < oneDay)
    (hsome : latestV2Release env ≠ none ∨ resolvedV3 env cache ≠ none) :
    (showNewVersionNotification env cache now).getLast? =
      some (Effect.writeCacheFile (writtenRecord env cache now)) ∧
    (writtenRecord env cache now).lastCheck = some (env.isoOfTime now) := by
  unfold showNewVersionNotification
  rw [if_neg hguard]
  have hcond : ((latestV2Release env).isNone && (resolvedV3 env cache).isNone) = false := by
    rcases hsome with h | h
    · simp [Option.isNone_iff_eq_none, h]
    · simp only [Bool.and_eq_false_iff, Option.isNone_eq_false_iff]
      right
      exact Option.isSome_iff_ne_none.mpr h
  rw [if_neg (by simp [hcond])]
  exact ⟨List.getLast?_concat _, rfl⟩

/-- C3 witness: with a successful pinned-release fetch and the guard
inactive, the invocation ends with the cache write carrying the current
time. -/
theorem c3_cache_rewrite_witness :
    (showNewVersionNotification envPinned cache0 oneDay).getLast? =
      some (Effect.writeCacheFile (writtenRecord envPinned cache0 oneDay)) ∧
    (writtenRecord envPinned cache0 oneDay).lastCheck =
      some (envPinned.isoOfTime oneDay) :=
  c3_cache_rewrite envPinned cache0 oneDay (by decide) (Or.inr (by decide))

/-- C4: the persisted cache file's pinned release descriptor is never
reused: `readCache` rebuilds the in-memory record from `lastCheck` and
`v3TimesShown` only, so even a file holding a descriptor (and a cached
message) yields a cache with neither, and the invocation still performs
the pinned-release fetch. -/
theorem c4_cached_release_dropped :
    (∀ f : ParsedCacheFile, (readCache (some f)).v3Release = none ∧
      (readCache (some f)).v3ReleaseMessage = none) ∧
    fileV3.v3ReleaseJson = some rel3 ∧
    Effect.fetchV3Release ∈
      showNewVersionNotification envFail (readCache (some fileV3)) oneDay := by
  refine ⟨fun f => ⟨rfl, rfl⟩, rfl, by decide⟩

/-- C5 counterexample: at exactly 24h0m0s elapsed the strict comparison
makes the guard inactive, and the invocation does perform the release-list
fetch, refuting the claim that the guard is active at the boundary. -/
theorem c5_boundary_counterexample :
    decide (oneDay - lastCheckTime envFail cache0 < oneDay) = false ∧
    (showNewVersionNotification envFail cache0 oneDay).head? =
      some Effect.fetchReleases := by
  refine ⟨by decide, by decide⟩

/-- C5 (amended): when strictly less than one day has elapsed since
`lastCheck` the invocation returns immediately with no effects at all;
at exactly one day elapsed the guard is inactive and the check proceeds,
its first effect being the release-list fetch. -/
theorem c5_guard (env : NotifierEnv) (cache : VersionNotifierCache) (now : Int) :
    (now - lastCheckTime env cache < oneDay →
      showNewVersionNotification env cache now = []) ∧
    (now - lastCheckTime env cache = oneDay →
      (showNewVersionNotification env cache now).head? =
        some Effect.fetchReleases) := by
  constructor
  · intro h
    unfold showNewVersionNotification
    rw [if_pos h]
  · intro h
    unfold showNewVersionNotification
    rw [if_neg (by omega)]
    split
    · rfl
    · simp [preEffects]

/-- C5 witness: the guard applied below the boundary (no effects) and at
the exact boundary (the check proceeds). -/
theorem c5_guard_witness :
    showNewVersionNotification envFail cache0 100 = [] ∧
    (showNewVersionNotification envFail cache0 oneDay).head? =
      some Effect.fetchReleases :=
  ⟨(c5_guard envFail cache0 100).1 (by decide),
   (c5_guard envFail cache0 oneDay).2 (by decide)⟩

/-- C6: once the persisted shown-count has reached the cap of 5, no
invocation of any subsequent sequence ever prints the pinned-release
(lane-2) notice, regardless of environments and times; and the presence of
the lane-1 notice is unaffected by the count. -/
theorem c6_cap_suppresses_lane2 (file : Option ParsedCacheFile)
    (invs : List (NotifierEnv × Int))
    (h : V3_RELEASE_MAX_TIMES_SHOWN ≤ fileShownCount file) :
    (∀ fx ∈ runSeq file invs, printsV3 fx = false) ∧
    (∀ (env : NotifierEnv) (cache : VersionNotifierCache) (now : Int) (n : Nat),
      printsV2 (showNewVersionNotification env
          { cache with v3TimesShown := n } now) =
        printsV2 (showNewVersionNotification env cache now)) :=
  ⟨c6_seq invs file h, fun env cache now n => printsV2_count env cache now n⟩

/-- C6 witness: a capped persisted file run for one invocation produces
only the two fetches, and that effect list prints no lane-2 notice. -/
theorem c6_cap_suppresses_lane2_witness :
    printsV3 [Effect.fetchReleases, Effect.fetchV3Release] = false := by
  have h := (c6_cap_suppresses_lane2 (some fileCap) [(envFail, oneDay)] (by decide)).1
  exact h [Effect.fetchReleases, Effect.fetchV3Release] (by decide)

/-- C7: a bare name is flagged by the collision computation exactly when
it occurs at some list position different from its first-occurrence index;
on `["A", "B", "A", "C"]` exactly `A` is flagged. -/
theorem c7_collision_first_index (names : List String) (name : String) :
    (name ∈ dupContractNames names ↔
      ∃ i, names[i]? = some name ∧ names.indexOf name ≠ i) ∧
    dupContractNames ["A", "B", "A", "C"] = ["A"] :=
  ⟨dup_mem_iff names name, by decide⟩

/-- C7 witness: the concrete collision computation of the claim. -/
theorem c7_collision_first_index_witness :
    dupContractNames ["A", "B", "A", "C"] = ["A"] :=
  (c7_collision_first_index [] "").2

/-- C8: the pruner removes exactly the directories of discovered
`file.d.ts` sentinels whose relative source name is absent from the
current set; a file survives exactly when no removed directory covers it;
force-removal of a directory nothing lies under (in particular a missing
one) leaves the file system unchanged and cannot fail; and on the
spec's scenario (valid sources X, Y; directories X, Y, Z) exactly Z's
directory is removed. -/
theorem c8_pruner (root : String) (fqns : List String) (fs fs2 : FsState)
    (d1 f0 d2 : String)
    (hmiss : (fs2.files.all fun f => !(f == d2 || underDir d2 f)) = true) :
    (d1 ∈ removedDirs root fqns fs ↔
      ∃ f, f ∈ fs.files ∧ underDir root f = true ∧
        strEndsWith f "file.d.ts" = true ∧ d1 = dirname f ∧
        ((fqns.map sourceNameOf).contains (pathRelative root d1)) = false) ∧
    (f0 ∈ (prunedFs root fqns fs).files ↔
      f0 ∈ fs.files ∧
        ((removedDirs root fqns fs).any fun d => f0 == d || underDir d f0) = false) ∧
    rmRec fs2 d2 = fs2 ∧
    removeObsoleteArtifactsAction "artifacts" fqnsW fsW =
      (⟨["artifacts/contracts/X.sol/file.d.ts", "artifacts/contracts/X.sol/X.d.ts",
         "artifacts/contracts/Y.sol/file.d.ts"]⟩, ["artifacts/contracts/Z.sol"]) := by
  refine ⟨?_, ?_, ?_, ?_⟩
  · unfold removedDirs removeObsoleteArtifactsAction getAllFilesMatching
    rw [pruneLoop_removed]
    constructor
    · intro h
      rcases List.mem_map.mp h with ⟨x, hx, rfl⟩
      rcases List.mem_filter.mp hx with ⟨hx2, hq⟩
      rcases List.mem_filter.mp hx2 with ⟨hmem, hsent⟩
      rcases Bool.and_eq_true_iff.mp hsent with ⟨hu, he⟩
      exact ⟨x, hmem, hu, he, rfl, bnot_eq_true.mp hq⟩
    · rintro ⟨f, hmem, hu, he, rfl, hnc⟩
      refine List.mem_map.mpr ⟨f, List.mem_filter.mpr ⟨List.mem_filter.mpr
        ⟨hmem, Bool.and_eq_true_iff.mpr ⟨hu, he⟩⟩, bnot_eq_true.mpr hnc⟩, rfl⟩
  · unfold prunedFs removedDirs removeObsoleteArtifactsAction getAllFilesMatching
    rw [pruneLoop_files]
    constructor
    · intro h
      rcases List.mem_filter.mp h with ⟨hmem, hp⟩
      exact ⟨hmem, bnot_eq_true.mp hp⟩
    · rintro ⟨hmem, hp⟩
      exact List.mem_filter.mpr ⟨hmem, bnot_eq_true.mpr hp⟩
  · cases fs2 with
    | mk files =>
      show rmRec ⟨files⟩ d2 = ⟨files⟩
      unfold rmRec
      congr 1
      apply List.filter_eq_self.mpr
      intro f hf
      exact List.all_eq_true.mp hmiss f hf
  · decide

/-- C8 witness: force-removing a directory that exists nowhere in the
scenario file system is a no-op, and the scenario removes exactly Z's
directory. -/
theorem c8_pruner_witness :
    rmRec fsW "artifacts/contracts/None.sol" = fsW ∧
    removedDirs "artifacts" fqnsW fsW = ["artifacts/contracts/Z.sol"] := by
  have h := c8_pruner "artifacts" fqnsW fsW fsW "d" "f"
    "artifacts/contracts/None.sol" (by decide)
  exact ⟨h.2.2.1, by decide⟩

/-- C9: the declaration generator is deterministic — equal artifacts and
equal duplicate flags produce byte-identical output text. -/
theorem c9_generator_deterministic (a1 a2 : Artifact) (d1 d2 : Bool)
    (ha : a1 = a2) (hd : d1 = d2) :
    generateContractDeclaration a1 d1 = generateContractDeclaration a2 d2 := by
  rw [ha, hd]

/-- C9 witness: determinism at a concrete artifact and flag. -/
theorem c9_generator_deterministic_witness :
    generateContractDeclaration artifactW true =
      generateContractDeclaration artifactW true :=
  c9_generator_deterministic artifactW artifactW true true rfl rfl

/-- C10: an artifact whose ABI has no constructor entry is treated exactly
like one with a zero-parameter constructor: the inputs list is empty, the
argument fragment is the optional `constructorArgs?: []`, and every
emitted deploy signature uses that optional fragment. -/
theorem c10_missing_constructor (a : Artifact) (d : Bool)
    (h : constructorAbi a = none) :
    constructorInputs a = [] ∧
    constructorArgsText (constructorInputs a) = "constructorArgs?: []" ∧
    deployDecls a d =
      (validNames a d).map
        (deployDeclFor "constructorArgs?: []" (contractTypeNameOf a)) := by
  have hin : constructorInputs a = [] := by
    unfold constructorInputs
    rw [h]
  refine ⟨hin, ?_, ?_⟩
  · rw [hin]
    rfl
  · unfold deployDecls
    rw [hin]
    rfl

/-- C10 witness: the constructor-free artifact evaluated concretely. -/
theorem c10_missing_constructor_witness :
    constructorInputs artifactNoCtor = [] ∧
    constructorArgsText (constructorInputs artifactNoCtor) = "constructorArgs?: []" ∧
    deployDecls artifactNoCtor true =
      (validNames artifactNoCtor true).map
        (deployDeclFor "constructorArgs?: []" (contractTypeNameOf artifactNoCtor)) :=
  c10_missing_constructor artifactNoCtor true (by decide)

end Hardhat
